import Mathlib

/-!
Shallow embedding of the response-normalization and session layer of a
React-Native file-upload client.  JavaScript runtime values are modelled by
`JSVal`; the service functions are translated statement-by-statement from the
TypeScript sources (src/services and src/storage).  Effects (network calls,
clock reads, persisted storage) are made explicit as parameters or state.
-/

/-- Model of a JavaScript runtime value, sufficient for the error and file
payload shapes handled by the services.  `vNaN` models the NaN number;
`vErr m` models an `Error` instance with message `m`; `vObj` models a plain
object as an ordered field list (first binding wins on lookup). -/
inductive JSVal where
  | vUndef
  | vNull
  | vBool (b : Bool)
  | vNum (n : Int)
  | vNaN
  | vStr (s : String)
  | vErr (message : String)
  | vObj (fields : List (String × JSVal))
  deriving Repr

namespace JSVal

mutual

/-- Structural equality on modelled JS values (deep equality of objects). -/
def beq : JSVal → JSVal → Bool
  | vUndef, vUndef => true
  | vNull, vNull => true
  | vBool a, vBool b => a == b
  | vNum a, vNum b => a == b
  | vNaN, vNaN => true
  | vStr a, vStr b => a == b
  | vErr a, vErr b => a == b
  | vObj fs, vObj gs => beqFields fs gs
  | _, _ => false

/-- Field-list equality used by `JSVal.beq`. -/
def beqFields : List (String × JSVal) → List (String × JSVal) → Bool
  | [], [] => true
  | (k1, v1) :: t1, (k2, v2) :: t2 => k1 == k2 && beq v1 v2 && beqFields t1 t2
  | _, _ => false

end

/-- JavaScript truthiness. -/
def truthy : JSVal → Bool
  | vUndef => false
  | vNull => false
  | vBool b => b
  | vNum n => n != 0
  | vNaN => false
  | vStr s => s != ""
  | vErr _ => true
  | vObj _ => true

/-- Values `undefined` and `null` are nullish (skipped by `??`). -/
def nullish : JSVal → Bool
  | vUndef => true
  | vNull => true
  | _ => false

/-- First binding for key `k` in a field list, reading as `undefined` when
absent (JS property read on a plain object). -/
def lookupField : List (String × JSVal) → String → JSVal
  | [], _ => vUndef
  | (k', v) :: rest, k => if k' == k then v else lookupField rest k

/-- Key presence in a field list (a key bound to `undefined` still counts
as present, unlike a missing key). -/
def hasKey : List (String × JSVal) → String → Bool
  | [], _ => false
  | (k', _) :: rest, k => k' == k || hasKey rest k

/-- Property access `v[k]`: missing keys read as `undefined`; an `Error`
instance exposes its `message`; primitives have no modelled properties. -/
def getField : JSVal → String → JSVal
  | vObj fields, k => lookupField fields k
  | vErr m, k => if k == "message" then vStr m else vUndef
  | _, _ => vUndef

/-- The `in` operator on the modelled values. -/
def hasProp : JSVal → String → Bool
  | vObj fields, k => hasKey fields k
  | vErr _, k => k == "message"
  | _, _ => false

/-- JS `a || b`: returns `a` when truthy, else `b`. -/
def jsOr (a b : JSVal) : JSVal := if truthy a then a else b

/-- JS `a && b`: returns `a` when falsy, else `b`. -/
def jsAnd (a b : JSVal) : JSVal := if truthy a then b else a

/-- JS `a ?? b`: returns `a` unless it is nullish. -/
def coalesce (a b : JSVal) : JSVal := if nullish a then b else a

/-- JS `err instanceof Error`. -/
def isError : JSVal → Bool
  | vErr _ => true
  | _ => false

/-- JS `typeof v === "string"`. -/
def isString : JSVal → Bool
  | vStr _ => true
  | _ => false

/-- JS `typeof v === "number"` (NaN is a number). -/
def isNumber : JSVal → Bool
  | vNum _ => true
  | vNaN => true
  | _ => false

/-- JS `typeof v === "object"` (true for `null` and plain objects). -/
def isObjectTy : JSVal → Bool
  | vObj _ => true
  | vNull => true
  | _ => false

/-- The `String(v)` coercion on the modelled values. -/
def jsToString : JSVal → String
  | vUndef => "undefined"
  | vNull => "null"
  | vBool b => if b then "true" else "false"
  | vNum n => toString n
  | vNaN => "NaN"
  | vStr s => s
  | vErr m => "Error: " ++ m
  | vObj _ => "[object Object]"

/-- Strict equality `v === 0`, the only strict comparison the adapter
performs (`NaN === 0` is false). -/
def strictEqZero : JSVal → Bool
  | vNum n => n == 0
  | _ => false

end JSVal

open JSVal

/-- Embedding of `normalizeError` from src/services/normalize-error.ts, translated
branch-for-branch.  The returned object keeps the JS literal's key set:
the axios and already-normalized branches bind `code` and `status` keys
even when their values are `undefined`, while the Error/string/unknown
branches bind only `message` and `original`. -/
def normalizeError (err : JSVal) : JSVal :=
  if truthy (jsAnd err (getField err "isAxiosError")) then
    let response := getField err "response"
    let data := getField response "data"
    let message :=
      jsOr
        (jsAnd response (jsAnd data (jsOr (getField data "message") (getField data "error"))))
        (jsOr (getField err "message") (vStr "An error occurred"))
    let code := jsOr (jsAnd response (jsAnd data (getField data "code"))) (getField err "code")
    let status := jsAnd response (getField response "status")
    vObj [("message", message), ("code", code), ("status", status), ("original", err)]
  else if truthy (jsAnd err (jsAnd (getField err "message")
      (vBool (hasProp err "status" || hasProp err "code")))) then
    vObj [("message", getField err "message"), ("code", getField err "code"),
      ("status", getField err "status"), ("original", err)]
  else if isError err then
    vObj [("message", getField err "message"), ("original", err)]
  else if isString err then
    vObj [("message", err), ("original", err)]
  else
    vObj [("message", vStr "An unknown error occurred"), ("original", err)]

/-- Projection used to compare normalized errors: the `message` field as a
string (empty for non-strings). -/
def messageOf (v : JSVal) : String :=
  match getField v "message" with
  | vStr s => s
  | _ => ""

example : messageOf (normalizeError (vErr "boom")) = "boom" := by rfl

example : messageOf (normalizeError (normalizeError (vErr "boom"))) =
    "An unknown error occurred" := by rfl

lemma truthy_jsOr (a b : JSVal) : truthy (jsOr a b) = (truthy a || truthy b) := by
  unfold jsOr
  by_cases h : truthy a <;> simp [h]

/-- Renormalizing an already-normalized object (all four keys present,
truthy message) reproduces the `message`/`code`/`status` fields and wraps
the object itself as the new `original`. -/
lemma normalizeError_passthrough (m c s orig : JSVal) (hm : truthy m = true) :
    normalizeError (vObj [("message", m), ("code", c), ("status", s), ("original", orig)]) =
      vObj [("message", m), ("code", c), ("status", s),
        ("original", vObj [("message", m), ("code", c), ("status", s), ("original", orig)])] := by
  have h1 : truthy (jsAnd (vObj [("message", m), ("code", c), ("status", s), ("original", orig)])
      (getField (vObj [("message", m), ("code", c), ("status", s), ("original", orig)])
        "isAxiosError")) = false := rfl
  have h2 : jsAnd (getField (vObj [("message", m), ("code", c), ("status", s), ("original", orig)])
        "message")
      (vBool (hasProp (vObj [("message", m), ("code", c), ("status", s), ("original", orig)])
          "status" ||
        hasProp (vObj [("message", m), ("code", c), ("status", s), ("original", orig)]) "code")) =
      vBool true := by
    show jsAnd m (vBool true) = vBool true
    unfold jsAnd
    rw [hm]
    rfl
  unfold normalizeError
  rw [h1, h2]
  rfl

/-- The message of a branch-1 (axios) normalization is always truthy: the
`||` chain ends in the nonempty literal `"An error occurred"`. -/
lemma axios_message_truthy (response data err : JSVal) :
    truthy (jsOr
      (jsAnd response (jsAnd data (jsOr (getField data "message") (getField data "error"))))
      (jsOr (getField err "message") (vStr "An error occurred"))) = true := by
  rw [truthy_jsOr]
  rw [truthy_jsOr]
  simp [truthy]

/-- C4 counterexample: `normalizeError` is not idempotent.  A plain
`Error` normalizes to an object without `code`/`status` keys, so the
already-normalized guard (`"status" in err || "code" in err`) rejects it
and renormalization falls through to the unknown-error branch. -/
theorem normalizeError_not_idempotent :
    normalizeError (normalizeError (vErr "boom")) ≠ normalizeError (vErr "boom") := by
  intro h
  exact absurd (congrArg messageOf h) (by decide)

/-- C4 amended: whenever the normalized result carries a `status` key
(the axios branch and the already-normalized branch — the only shapes the
guard accepts on renormalization), renormalizing preserves `message`,
`code` and `status` exactly; only `original` is replaced by the
normalized object itself. -/
theorem normalizeError_field_idempotent (e : JSVal)
    (h : hasProp (normalizeError e) "status" = true) :
    ∃ m c s, normalizeError e = vObj [("message", m), ("code", c), ("status", s),
        ("original", e)] ∧
      normalizeError (normalizeError e) = vObj [("message", m), ("code", c), ("status", s),
        ("original", normalizeError e)] := by
  by_cases h1 : truthy (jsAnd e (getField e "isAxiosError"))
  · have he : normalizeError e =
        vObj [("message", jsOr
            (jsAnd (getField e "response") (jsAnd (getField (getField e "response") "data")
              (jsOr (getField (getField (getField e "response") "data") "message")
                (getField (getField (getField e "response") "data") "error"))))
            (jsOr (getField e "message") (vStr "An error occurred"))),
          ("code", jsOr
            (jsAnd (getField e "response") (jsAnd (getField (getField e "response") "data")
              (getField (getField (getField e "response") "data") "code")))
            (getField e "code")),
          ("status", jsAnd (getField e "response") (getField (getField e "response") "status")),
          ("original", e)] := by
      unfold normalizeError
      rw [if_pos h1]
    refine ⟨_, _, _, he, ?_⟩
    rw [he]
    exact normalizeError_passthrough _ _ _ _ (axios_message_truthy _ _ _)
  · by_cases h2 : truthy (jsAnd e (jsAnd (getField e "message")
        (vBool (hasProp e "status" || hasProp e "code"))))
    · have hm : truthy (getField e "message") = true := by
        unfold jsAnd at h2
        by_cases hte : truthy e
        · simp only [hte, if_pos] at h2
          by_cases htm : truthy (getField e "message")
          · exact htm
          · simp only [htm, if_neg] at h2
            simp [htm] at h2
        · simp [hte] at h2
      have he : normalizeError e =
          vObj [("message", getField e "message"), ("code", getField e "code"),
            ("status", getField e "status"), ("original", e)] := by
        unfold normalizeError
        rw [if_neg h1, if_pos h2]
      refine ⟨_, _, _, he, ?_⟩
      rw [he]
      exact normalizeError_passthrough _ _ _ _ hm
    · exfalso
      unfold normalizeError at h
      rw [if_neg h1, if_neg h2] at h
      by_cases h3 : isError e
      · rw [if_pos h3] at h
        exact Bool.noConfusion h
      · rw [if_neg h3] at h
        by_cases h4 : isString e
        · rw [if_pos h4] at h
          exact Bool.noConfusion h
        · rw [if_neg h4] at h
          exact Bool.noConfusion h

/-- A concrete axios-shaped error used to witness the amended C4 theorem. -/
def axiosSample : JSVal :=
  vObj [("isAxiosError", vBool true), ("message", vStr "Network Error"),
    ("response", vObj [("status", vNum 500),
      ("data", vObj [("message", vStr "boom"), ("code", vStr "E_BOOM")])])]

/-- Witness for the amended C4 theorem at a concrete axios error. -/
theorem normalizeError_field_idempotent_witness :
    ∃ m c s, normalizeError axiosSample = vObj [("message", m), ("code", c), ("status", s),
        ("original", axiosSample)] ∧
      normalizeError (normalizeError axiosSample) = vObj [("message", m), ("code", c),
        ("status", s), ("original", normalizeError axiosSample)] :=
  normalizeError_field_idempotent axiosSample rfl

/-! ### JavaScript string primitives

`decodeURIComponent` (ECMA-262 Decode with an empty reserved set: percent
triplets are decoded to bytes which must form valid UTF-8, otherwise a
`URIError` is thrown), `parseInt`, and `JSON.stringify`. -/

/-- Value of a hexadecimal digit character (codepoint arithmetic: digits
48–57, uppercase 65–70, lowercase 97–102). -/
def hexDigit? (c : Char) : Option Nat :=
  let n := c.toNat
  if 48 ≤ n ∧ n ≤ 57 then some (n - 48)
  else if 65 ≤ n ∧ n ≤ 70 then some (n - 55)
  else if 97 ≤ n ∧ n ≤ 102 then some (n - 87)
  else none

/-- Phase 1 of Decode: turn every `%hh` triplet into a byte, keep other
characters; `none` models a URIError (a `%` not followed by two hex
digits). -/
def percentParse : List Char → Option (List (Char ⊕ Nat))
  | [] => some []
  | '%' :: a :: b :: rest =>
    match hexDigit? a, hexDigit? b with
    | some x, some y => (percentParse rest).map (Sum.inr (16 * x + y) :: ·)
    | _, _ => none
  | '%' :: _ => none
  | c :: rest => (percentParse rest).map (Sum.inl c :: ·)

/-- Is `b` a UTF-8 continuation byte? -/
def isCont (b : Nat) : Bool := 0x80 ≤ b && b < 0xC0

/-- Phase 2 of Decode: the byte runs produced from `%hh` triplets must be
valid (shortest-form, non-surrogate, in-range) UTF-8; `none` models a
URIError. -/
def utf8Assemble : List (Char ⊕ Nat) → Option (List Char)
  | [] => some []
  | .inl c :: rest => (utf8Assemble rest).map (c :: ·)
  | .inr b :: rest =>
    if b < 0x80 then (utf8Assemble rest).map (Char.ofNat b :: ·)
    else if b < 0xC0 then none
    else if b < 0xE0 then
      match rest with
      | .inr b1 :: rest1 =>
        if isCont b1 then
          let v := (b - 0xC0) * 0x40 + (b1 - 0x80)
          if 0x80 ≤ v then (utf8Assemble rest1).map (Char.ofNat v :: ·) else none
        else none
      | _ => none
    else if b < 0xF0 then
      match rest with
      | .inr b1 :: .inr b2 :: rest2 =>
        if isCont b1 && isCont b2 then
          let v := (b - 0xE0) * 0x1000 + (b1 - 0x80) * 0x40 + (b2 - 0x80)
          if 0x800 ≤ v ∧ ¬(0xD800 ≤ v ∧ v ≤ 0xDFFF) then
            (utf8Assemble rest2).map (Char.ofNat v :: ·)
          else none
        else none
      | _ => none
    else if b < 0xF8 then
      match rest with
      | .inr b1 :: .inr b2 :: .inr b3 :: rest3 =>
        if isCont b1 && isCont b2 && isCont b3 then
          let v := (b - 0xF0) * 0x40000 + (b1 - 0x80) * 0x1000 + (b2 - 0x80) * 0x40 + (b3 - 0x80)
          if 0x10000 ≤ v ∧ v ≤ 0x10FFFF then (utf8Assemble rest3).map (Char.ofNat v :: ·)
          else none
        else none
      | _ => none
    else none

/-- JS `decodeURIComponent`: an `Except.error` models a thrown `URIError`. -/
def decodeURIComponentJS (s : String) : Except String String :=
  match percentParse s.data with
  | none => .error "URI malformed"
  | some items =>
    match utf8Assemble items with
    | none => .error "URI malformed"
    | some cs => .ok (String.mk cs)

example : decodeURIComponentJS "a%20b.pdf" = .ok "a b.pdf" := by rfl
example : decodeURIComponentJS "File" = .ok "File" := by rfl
example : decodeURIComponentJS "%" = .error "URI malformed" := by rfl
example : decodeURIComponentJS "%E2%82%AC" = .ok "€" := by rfl
example : decodeURIComponentJS "%C0%80" = .error "URI malformed" := by rfl

/-- Leading digits of `cs` in base `radix`, as an accumulated value;
`none` when there is no leading digit at all (parseInt's NaN). -/
def digitsValue (radix : Nat) : List Char → Option Nat → Option Nat
  | c :: rest, acc =>
    match hexDigit? c with
    | some d =>
      if d < radix then digitsValue radix rest (some ((acc.getD 0) * radix + d)) else acc
    | none => acc
  | [], acc => acc

/-- JS WhiteSpace / LineTerminator characters recognized by `trim` (the
ASCII ones plus NBSP; other exotic Unicode spaces are not modelled). -/
def isJsWhitespace (c : Char) : Bool :=
  c = ' ' || c = '\t' || c = '\n' || c = '\r' || c = '\x0b' || c = '\x0c' || c = ' '

/-- JS `String.prototype.trim`. -/
def jsTrim (s : String) : String :=
  String.mk (((s.data.dropWhile isJsWhitespace).reverse.dropWhile isJsWhitespace).reverse)

/-- JS `parseInt(s)` with no explicit radix: trim, optional sign, optional
`0x` prefix selecting base 16, then leading digits; `none` models NaN. -/
def parseIntJS (s : String) : Option Int :=
  let t := jsTrim s
  let (neg, rest) :=
    match t.data with
    | '-' :: r => (true, r)
    | '+' :: r => (false, r)
    | r => (false, r)
  let (digits, radix) :=
    match rest with
    | '0' :: 'x' :: r => (r, 16)
    | '0' :: 'X' :: r => (r, 16)
    | r => (r, 10)
  match digitsValue radix digits none with
  | none => none
  | some v => some (if neg then -(v : Int) else (v : Int))

example : parseIntJS "1024" = some 1024 := by rfl
example : parseIntJS " -7x" = some (-7) := by rfl
example : parseIntJS "abc" = none := by rfl
example : parseIntJS "12.9" = some 12 := by rfl

/-- Escape a string for inclusion in a JSON document (quotes and
backslashes; control characters are not modelled). -/
def jsonEscape (s : String) : String :=
  s.data.foldr (fun c acc =>
    if c = '"' then "\\\"" ++ acc
    else if c = '\\' then "\\\\" ++ acc
    else String.mk [c] ++ acc) ""

mutual

/-- JS `JSON.stringify` on the modelled values (`undefined` fields are
dropped, `NaN` serializes as `null`, `Error` as an empty object). -/
def jsonStringify : JSVal → String
  | vUndef => "null"
  | vNull => "null"
  | vBool b => if b then "true" else "false"
  | vNum n => toString n
  | vNaN => "null"
  | vStr s => "\"" ++ jsonEscape s ++ "\""
  | vErr _ => "\x7b\x7d"
  | vObj fields => "\x7b" ++ String.intercalate "," (jsonStringifyFields fields) ++ "\x7d"

/-- Serialize an object's fields as `"key":value` pieces, dropping
`undefined` bindings. -/
def jsonStringifyFields : List (String × JSVal) → List String
  | [] => []
  | (k, v) :: rest =>
    match v with
    | vUndef => jsonStringifyFields rest
    | w => ("\"" ++ jsonEscape k ++ "\":" ++ jsonStringify w) :: jsonStringifyFields rest

end

example : jsonStringify (vObj [("token", vStr "t"), ("expiresAt", vNum 7)]) =
    "\x7b\"token\":\"t\",\"expiresAt\":7\x7d" := by rfl

/-- ASCII lowering, the fragment of `String.prototype.toLowerCase`
exercised by extension/MIME strings. -/
def jsToLower (s : String) : String :=
  String.mk (s.data.map fun c => if 'A' ≤ c ∧ c ≤ 'Z' then Char.ofNat (c.toNat + 32) else c)

/-- JS `String.prototype.split(".")`. -/
def splitOnDot : List Char → List (List Char)
  | [] => [[]]
  | '.' :: rest => [] :: splitOnDot rest
  | c :: rest =>
    match splitOnDot rest with
    | [] => [[c]]
    | h :: t => (c :: h) :: t

/-- JS `a || b` on strings (empty string is falsy). -/
def strOr (a b : String) : String := if a = "" then b else a

/-! ### File response adapter (src/services/adapters/file-adapter.ts)

`adaptFileResponse` maps a raw backend payload (an arbitrary JS value) to
the internal `FileMetadata` model.  Fields keep their JS runtime type
(`JSVal`) except `fileName`, which is always the string produced by
`decodeURIComponent`. -/

/-- Internal `FileMetadata` model as built by the adapter and by
`uploadFile` (src/services/db-service.ts). -/
structure FileMetadata where
  id : JSVal
  fileName : String
  fileType : JSVal
  fileSize : JSVal
  uploadedByUserId : JSVal
  uploadedByUsername : JSVal
  uploadedByEmail : JSVal
  timestamp : JSVal
  downloadUrl : JSVal
  deriving Repr

/-- The `?? `-chain that resolves the raw file-name value (first
non-nullish of `file_name`, `fileName`, `name`, else `"File"`). -/
def fileNameChain (f : JSVal) : JSVal :=
  coalesce (getField f "file_name")
    (coalesce (getField f "fileName") (coalesce (getField f "name") (vStr "File")))

/-- Embedding of `adaptFileResponse`, translated statement-by-statement.  The only
fallible step is `decodeURIComponent` on the resolved file name: its
`URIError` propagates (`Except.error`).  `nowIso` stands for
`new Date().toISOString()`. -/
def adaptFileResponse (f : JSVal) (nowIso : String) : Except String FileMetadata :=
  let ub := getField f "uploaded_by"
  let u1 : JSVal :=
    if isString ub then
      match ub with
      | vStr s =>
        match parseIntJS s with
        | some n => if n = 0 then vNum 0 else vNum n
        | none => vNum 0
      | _ => vNum 0
    else if isNumber ub then ub
    else if truthy ub && isObjectTy ub && hasProp ub "id" then getField ub "id"
    else vNum 0
  let u2 : JSVal :=
    if strictEqZero u1 then
      match parseIntJS (jsToString (coalesce (getField f "owner_id")
          (coalesce (getField f "uploadedByUserId") (vNum 0)))) with
      | some n => vNum n
      | none => vNaN
    else u1
  match decodeURIComponentJS (jsToString (fileNameChain f)) with
  | .error e => .error e
  | .ok fn =>
    .ok {
      id := coalesce (getField f "file_id") (coalesce (getField f "id") (vStr ""))
      fileName := fn
      fileType := coalesce (getField f "file_type") (coalesce (getField f "fileType")
        (coalesce (getField f "mimeType") (vStr "application/octet-stream")))
      fileSize :=
        match parseIntJS (jsToString (coalesce (getField f "file_size")
            (coalesce (getField f "fileSize") (vNum 0)))) with
        | some n => vNum n
        | none => vNaN
      uploadedByUserId := u2
      uploadedByUsername := coalesce (getField f "uploaded_by_username")
        (coalesce (getField f "uploadedByUsername") (vStr "You"))
      uploadedByEmail := coalesce (getField f "uploaded_by_email")
        (coalesce (getField f "uploadedByEmail") (vStr ""))
      timestamp := coalesce (getField f "upload_time") (coalesce (getField f "uploaded_at")
        (coalesce (getField f "created_at") (vStr nowIso)))
      downloadUrl := coalesce (getField f "download_url") (coalesce (getField f "downloadUrl")
        (getField f "url")) }

example :
    (adaptFileResponse (vObj [("file_name", vStr "a%20b.pdf"), ("file_size", vStr "1024"),
      ("owner_id", vStr "7")]) "T").map (fun r => (r.fileName, r.fileSize, r.uploadedByUserId)) =
    .ok ("a b.pdf", vNum 1024, vNum 7) := by rfl

/-- C5 counterexample: a payload whose `file_name` is a malformed
percent-encoding makes `adaptFileResponse` throw (`decodeURIComponent`
raises a URIError that the adapter does not catch), refuting the claim
that the adapter never throws on malformed optional fields. -/
theorem adaptFileResponse_throws_on_malformed_name :
    adaptFileResponse (vObj [("file_name", vStr "%")]) "T" = .error "URI malformed" := by rfl

/-- C5 amended: the resolved-name decode is the adapter's only throw
source — whenever it succeeds the adapter returns a value with exactly
that decoded name; in particular a payload with no file name under any
tried key always succeeds with the placeholder `"File"`. -/
theorem adaptFileResponse_total_when_name_decodes (f : JSVal) (nowIso : String) :
    (∀ fn, decodeURIComponentJS (jsToString (fileNameChain f)) = .ok fn →
      ∃ r, adaptFileResponse f nowIso = .ok r ∧ r.fileName = fn) ∧
    (nullish (getField f "file_name") = true → nullish (getField f "fileName") = true →
      nullish (getField f "name") = true →
      ∃ r, adaptFileResponse f nowIso = .ok r ∧ r.fileName = "File") := by
  constructor
  · intro fn h
    unfold adaptFileResponse
    rw [h]
    exact ⟨_, rfl, rfl⟩
  · intro h1 h2 h3
    have hchain : fileNameChain f = vStr "File" := by
      unfold fileNameChain coalesce
      rw [h1, h2, h3]
      rfl
    unfold adaptFileResponse
    rw [hchain]
    exact ⟨_, rfl, rfl⟩

/-- Witness for the amended C5 theorem: the empty payload resolves no
name key and yields the `"File"` placeholder; a percent-encoded name
decodes and is returned decoded. -/
theorem adaptFileResponse_total_when_name_decodes_witness :
    (∃ r, adaptFileResponse (vObj [("file_name", vStr "a%20b.pdf")]) "T" = .ok r ∧
      r.fileName = "a b.pdf") ∧
    (∃ r, adaptFileResponse (vObj []) "T" = .ok r ∧ r.fileName = "File") :=
  ⟨(adaptFileResponse_total_when_name_decodes (vObj [("file_name", vStr "a%20b.pdf")]) "T").1
      "a b.pdf" rfl,
    (adaptFileResponse_total_when_name_decodes (vObj []) "T").2 rfl rfl rfl⟩

/-! ### MIME normalization (`getMimeType` in src/services/db-service.ts)

The adapter itself performs no MIME inference; `getMimeType` is applied
only when a file is opened (`openLocalFile`). -/

/-- The extension-to-MIME table of `getMimeType`. -/
def mimeMap : List (String × String) :=
  [("txt", "text/plain"), ("text", "text/plain"),
   ("pdf", "application/pdf"), ("doc", "application/msword"),
   ("docx", "application/vnd.openxmlformats-officedocument.wordprocessingml.document"),
   ("xls", "application/vnd.ms-excel"),
   ("xlsx", "application/vnd.openxmlformats-officedocument.spreadsheetml.sheet"),
   ("ppt", "application/vnd.ms-powerpoint"),
   ("pptx", "application/vnd.openxmlformats-officedocument.presentationml.presentation"),
   ("jpg", "image/jpeg"), ("jpeg", "image/jpeg"), ("png", "image/png"),
   ("gif", "image/gif"), ("webp", "image/webp"), ("bmp", "image/bmp"),
   ("mp3", "audio/mpeg"), ("wav", "audio/wav"), ("m4a", "audio/mp4"),
   ("aac", "audio/aac"),
   ("mp4", "video/mp4"), ("mkv", "video/x-matroska"), ("avi", "video/x-msvideo"),
   ("mov", "video/quicktime")]

/-- First-match association lookup (`mimeMap[extension]`). -/
def lookupAssoc : List (String × String) → String → Option String
  | [], _ => none
  | (k, v) :: rest, key => if k = key then some v else lookupAssoc rest key

/-- Embedding of `getMimeType(fileType?, fileName?)` from src/services/db-service.ts:
returns the input unchanged when it already contains `/`, else maps the
(lowercased, trimmed) extension — taken from the filename when the type
is empty — through `mimeMap`, falling back to the bare input string and
finally to `application/octet-stream`. -/
def getMimeType (fileType : Option String) (fileName : Option String) : String :=
  if fileType.getD "" = "" ∧ fileName.getD "" = "" then "application/octet-stream"
  else
    let type := jsTrim (jsToLower (fileType.getD ""))
    if type.data.contains '/' then type
    else
      let extension :=
        if type = "" then
          match fileName with
          | some name =>
            let parts := splitOnDot name.data
            if parts.length > 1 then jsToLower (String.mk (parts.getLastD [])) else ""
          | none => ""
        else type
      strOr (strOr ((lookupAssoc mimeMap extension).getD "") type) "application/octet-stream"

example : getMimeType (some "pdf") none = "application/pdf" := by rfl
example : getMimeType none (some "a.JPG") = "image/jpeg" := by rfl
example : getMimeType (some "text/plain") none = "text/plain" := by rfl
example : getMimeType (some "xyz") none = "xyz" := by rfl

/-- C6 counterexample: a payload whose `file_type` is the bare extension
`"pdf"` is adapted to `fileType = "pdf"` — not a `type/subtype` string —
because `adaptFileResponse` passes the file-type field through without
MIME inference. -/
theorem adaptFileResponse_keeps_bare_extension :
    (adaptFileResponse (vObj [("file_type", vStr "pdf")]) "T").map (fun r => r.fileType) =
      .ok (vStr "pdf") ∧ ("pdf".data.contains '/') = false := ⟨rfl, rfl⟩

lemma lookupAssoc_mem (l : List (String × String)) (key v : String)
    (h : lookupAssoc l key = some v) : (key, v) ∈ l := by
  induction l with
  | nil => exact absurd h (by simp [lookupAssoc])
  | cons p rest ih =>
    obtain ⟨k, w⟩ := p
    unfold lookupAssoc at h
    by_cases hk : k = key
    · subst hk
      rw [if_pos rfl] at h
      exact (Option.some_inj.mp h) ▸ List.mem_cons_self _ _
    · rw [if_neg hk] at h
      exact List.mem_cons_of_mem _ (ih h)

lemma mimeMap_entries_wellformed :
    ∀ p ∈ mimeMap, p.1 ≠ "" ∧ p.1.data.contains '/' = false ∧
      p.2 ≠ "" ∧ p.2.data.contains '/' = true := by decide

/-- C6 amended: MIME normalization lives in `getMimeType`, not in the
adapter: for every file-type string whose lowercased, trimmed form is in
the extension table, `getMimeType` returns the table's full
`type/subtype` MIME string; the adapter itself passes the raw file-type
field through unchanged. -/
theorem getMimeType_normalizes_known_extensions (t : String) (fn : Option String) (m : String)
    (h : lookupAssoc mimeMap (jsTrim (jsToLower t)) = some m) :
    getMimeType (some t) fn = m ∧ m.data.contains '/' = true ∧
    (∀ ft nowIso, (adaptFileResponse (vObj [("file_type", vStr ft)]) nowIso).map
      (fun r => r.fileType) = .ok (vStr ft)) := by
  obtain ⟨hk1, hk2, hm1, hm2⟩ := mimeMap_entries_wellformed _ (lookupAssoc_mem _ _ _ h)
  have hk1' : jsTrim (jsToLower t) ≠ "" := hk1
  have hk2' : (jsTrim (jsToLower t)).data.contains '/' = false := hk2
  have hm1' : m ≠ "" := hm1
  have ht : ¬(t = "") := by
    intro ht
    apply hk1'
    rw [ht]
    rfl
  refine ⟨?_, hm2, fun ft nowIso => rfl⟩
  unfold getMimeType
  rw [if_neg (fun hc => ht (by simpa using hc.1))]
  simp only [Option.getD]
  rw [if_neg (by rw [hk2']; exact Bool.false_ne_true), if_neg hk1', h]
  unfold strOr
  simp only [Option.getD]
  rw [if_neg hm1']
  rw [if_neg hm1']

/-- Witness for the amended C6 theorem at the bare extension `"pdf"`. -/
theorem getMimeType_normalizes_known_extensions_witness :
    getMimeType (some "pdf") none = "application/pdf" ∧
    ("application/pdf".data.contains '/') = true ∧
    (∀ ft nowIso, (adaptFileResponse (vObj [("file_type", vStr ft)]) nowIso).map
      (fun r => r.fileType) = .ok (vStr ft)) :=
  getMimeType_normalizes_known_extensions "pdf" none "application/pdf" rfl

/-! ### JWT expiry checks (jwt-utils in src/services/file-service.ts)

`decodeJwt` (split on `.`, base64url decode of the claims segment,
`JSON.parse`) is abstracted into its result: an `Option JwtClaims` where
`none` models every decode failure (wrong segment count, bad base64,
unparseable JSON).  `isJwtExpired`, `getTokenExpiryIn` and
`isTokenExpiringsoon` all start from that result, so the claims —
which condition only on the decode outcome — are statable over it.
`now` is `Date.now()` in milliseconds; the `exp` claim is a JSON number,
modelled as a rational (seconds). -/

/-- The decoded JWT payload as consumed by the expiry helpers: only the
`exp` claim is read (`none` = claim absent). -/
structure JwtClaims where
  exp : Option ℚ
  deriving Repr

/-- Embedding of `isJwtExpired`: true when decoding failed, the `exp` claim is absent
or falsy (`!payload?.exp`), or `Date.now() > exp * 1000`. -/
def isJwtExpired (payload? : Option JwtClaims) (now : ℚ) : Bool :=
  match payload? with
  | none => true
  | some p =>
    match p.exp with
    | none => true
    | some e => if e = 0 then true else decide (now > e * 1000)

/-- Embedding of `getTokenExpiryIn`: seconds until expiry,
`Math.floor((exp * 1000 - Date.now()) / 1000)`; `null` when decoding
failed or the `exp` claim is absent/falsy. -/
def getTokenExpiryIn (payload? : Option JwtClaims) (now : ℚ) : Option ℤ :=
  match payload? with
  | none => none
  | some p =>
    match p.exp with
    | none => none
    | some e => if e = 0 then none else some ⌊(e * 1000 - now) / 1000⌋

/-- Embedding of `isTokenExpiringsoon`: expiring within `threshold` seconds (default
300); decode failure counts as expiring. -/
def isTokenExpiringsoon (payload? : Option JwtClaims) (now : ℚ) (threshold : ℤ := 300) : Bool :=
  match getTokenExpiryIn payload? now with
  | none => true
  | some secs => decide (secs < threshold)

/-- C7: `isJwtExpired` fails closed — it returns true whenever the claims
segment is absent/unparseable (decode yields `none`), or the `exp` claim
is missing, or the current time exceeds the expiry instant. -/
theorem isJwtExpired_fail_closed (payload? : Option JwtClaims) (now : ℚ)
    (h : payload? = none ∨ (∃ p, payload? = some p ∧ p.exp = none) ∨
      (∃ p e, payload? = some p ∧ p.exp = some e ∧ now > e * 1000)) :
    isJwtExpired payload? now = true := by
  rcases h with h | ⟨p, hp, he⟩ | ⟨p, e, hp, he, hgt⟩
  · rw [h]
    rfl
  · simp only [isJwtExpired, hp, he]
  · simp only [isJwtExpired, hp, he]
    by_cases h0 : e = 0
    · rw [if_pos h0]
    · rw [if_neg h0]
      exact decide_eq_true hgt

/-- Witness for C7: all three fail-closed causes at concrete inputs
(undecodable token, token without `exp`, token expired one second ago). -/
theorem isJwtExpired_fail_closed_witness :
    isJwtExpired none 0 = true ∧
    isJwtExpired (some ⟨none⟩) 0 = true ∧
    isJwtExpired (some ⟨some 10⟩) 11000 = true :=
  ⟨isJwtExpired_fail_closed none 0 (Or.inl rfl),
    isJwtExpired_fail_closed (some ⟨none⟩) 0 (Or.inr (Or.inl ⟨⟨none⟩, rfl, rfl⟩)),
    isJwtExpired_fail_closed (some ⟨some 10⟩) 11000
      (Or.inr (Or.inr ⟨⟨some 10⟩, 10, rfl, rfl, by norm_num⟩))⟩

/-- C8 counterexample: with `exp = 1` (second) and `now = 500` (ms) the
remaining time floors to `0 ≤ 0`, yet `isJwtExpired` is still false —
refuting "`isExpired` is true immediately when `expiresInSeconds <= 0`".
The flooring keeps `expiresInSeconds = 0` during the entire final
sub-second window while expiry needs `now` strictly past `exp * 1000`. -/
theorem expiry_roundtrip_fails_at_zero :
    getTokenExpiryIn (some ⟨some 1⟩) 500 = some 0 ∧
    isJwtExpired (some ⟨some 1⟩) 500 = false := by
  constructor
  · unfold getTokenExpiryIn
    norm_num
  · unfold isJwtExpired
    norm_num

/-- C8 amended: for a token with a well-formed (truthy) expiry claim,
`isJwtExpired` is true exactly when `getTokenExpiryIn` is negative; in
particular it is false for all non-negative remaining seconds (positive
ones included). -/
theorem isJwtExpired_iff_expiry_negative (p : JwtClaims) (e : ℚ) (now : ℚ)
    (hp : p.exp = some e) (h0 : e ≠ 0) :
    ∃ k : ℤ, getTokenExpiryIn (some p) now = some k ∧
      (isJwtExpired (some p) now = true ↔ k < 0) := by
  refine ⟨⌊(e * 1000 - now) / 1000⌋, ?_, ?_⟩
  · simp only [getTokenExpiryIn, hp, if_neg h0]
  · simp only [isJwtExpired, hp, if_neg h0]
    rw [decide_eq_true_eq]
    rw [Int.floor_lt]
    push_cast
    rw [div_lt_iff₀ (by norm_num : (0:ℚ) < 1000)]
    constructor
    · intro hgt
      linarith
    · intro hlt
      linarith

/-- Witness for the amended C8 theorem: an expired token (`now` one
second past `exp * 1000`) has negative remaining seconds. -/
theorem isJwtExpired_iff_expiry_negative_witness :
    ∃ k : ℤ, getTokenExpiryIn (some ⟨some 10⟩) 11000 = some k ∧
      (isJwtExpired (some ⟨some 10⟩) 11000 = true ↔ k < 0) :=
  isJwtExpired_iff_expiry_negative ⟨some 10⟩ 10 11000 rfl (by norm_num)

/-! ### Persisted auth storage (src/storage/token-storage.ts)

Two SecureStore slots: the credential under `auth_token` and the profile
under `current_user`.  `JSON.parse` is passed in as a function
(`Except.error` models a thrown SyntaxError). -/

/-- The persisted key-value state: `auth_token` and `current_user`. -/
structure AuthStorage where
  token : Option String
  user : Option String
  deriving Repr, DecidableEq

/-- JS `Number(string)` restricted to the integer literals relevant to
`expiresAt` comparisons: trimmed empty string is 0, decimal or `0x` hex
integers parse in full; anything else (including fractions/exponents,
which cannot be produced by `saveToken`) is NaN (`none`). -/
def jsStringToNumber (s : String) : Option Int :=
  let t := jsTrim s
  if t = "" then some 0
  else
    let (neg, rest) :=
      match t.data with
      | '-' :: r => (true, r)
      | '+' :: r => (false, r)
      | r => (false, r)
    let digitsAll : Nat → List Char → Option Nat := fun radix cs =>
      match cs with
      | [] => none
      | _ => cs.foldl (fun acc c =>
          match acc, hexDigit? c with
          | some a, some d => if d < radix then some (a * radix + d) else none
          | _, _ => none) (some 0)
    match rest with
    | '0' :: 'x' :: r => if neg then none else (digitsAll 16 r).map (Int.ofNat)
    | '0' :: 'X' :: r => if neg then none else (digitsAll 16 r).map (Int.ofNat)
    | r => (digitsAll 10 r).map (fun v => if neg then -(v : Int) else (v : Int))

/-- JS `ToNumber` for the `Date.now() > tokenData.expiresAt` comparison
(`none` = NaN, whose comparisons are false). -/
def jsToNumberJS : JSVal → Option Int
  | vNum n => some n
  | vNaN => none
  | vNull => some 0
  | vBool b => some (if b then 1 else 0)
  | vUndef => none
  | vStr s => jsStringToNumber s
  | vErr _ => none
  | vObj _ => none

/-- Comparison `now > v` with JS numeric coercion. -/
def dateNowGtJS (now : Int) (v : JSVal) : Bool :=
  match jsToNumberJS v with
  | none => false
  | some x => decide (now > x)

/-- Embedding of `deleteToken()`. -/
def deleteToken (st : AuthStorage) : AuthStorage := { st with token := none }

/-- Embedding of `deleteCurrentUser()`. -/
def deleteCurrentUser (st : AuthStorage) : AuthStorage := { st with user := none }

/-- Embedding of `clearAuthData()` = `deleteToken(); deleteCurrentUser()`. -/
def clearAuthData (st : AuthStorage) : AuthStorage := deleteCurrentUser (deleteToken st)

/-- Result of `getToken`: the returned JS value and the storage after
the call (an expired wrapped token is purged). -/
structure GetTokenResult where
  value : JSVal
  store : AuthStorage
  deriving Repr

/-- Embedding of `getToken()` from src/storage/token-storage.ts.  The stored string is
JSON-parsed inside a try block: a parse failure (or a parsed `null`,
whose property access throws) is caught and the raw stored string is
returned unchanged; a parsed value is checked against `Date.now()` via
its `expiresAt` property and purged when expired. -/
def getToken (st : AuthStorage) (jsonParse : String → Except Unit JSVal) (now : Int) :
    GetTokenResult :=
  match st.token with
  | none => ⟨vNull, st⟩
  | some s =>
    if s = "" then ⟨vNull, st⟩
    else
      match jsonParse s with
      | .error _ => ⟨vStr s, st⟩
      | .ok td =>
        if nullish td then ⟨vStr s, st⟩
        else if dateNowGtJS now (getField td "expiresAt") then ⟨vNull, deleteToken st⟩
        else ⟨getField td "token", st⟩

/-- Embedding of `getCurrentUser()`: JSON-parses the stored profile; a parse failure
propagates (`Except.error`). -/
def getCurrentUser (st : AuthStorage) (jsonParse : String → Except Unit JSVal) :
    Except Unit JSVal :=
  match st.user with
  | none => .ok vNull
  | some s => if s = "" then .ok vNull else jsonParse s

/-- C10: when the persisted credential is not valid JSON, `getToken`
returns the stored string as-is — for every current time, so no expiry
timestamp is consulted — and leaves storage untouched; the expiry check
and purge-on-expiry apply only to JSON-parsed `{token, expiresAt}`
values. -/
theorem getToken_legacy_raw_passthrough (st : AuthStorage) (s : String)
    (jsonParse : String → Except Unit JSVal) (now : Int)
    (hs : st.token = some s) (hne : s ≠ "") :
    (jsonParse s = .error () → getToken st jsonParse now = ⟨vStr s, st⟩) ∧
    (∀ td n, jsonParse s = .ok td → nullish td = false → getField td "expiresAt" = vNum n →
      now > n → getToken st jsonParse now = ⟨vNull, deleteToken st⟩) ∧
    (∀ td n, jsonParse s = .ok td → nullish td = false → getField td "expiresAt" = vNum n →
      ¬(now > n) → getToken st jsonParse now = ⟨getField td "token", st⟩) := by
  refine ⟨?_, ?_, ?_⟩
  · intro hp
    simp only [getToken, hs, if_neg hne, hp]
  · intro td n hp hnull hexp hgt
    simp only [getToken, hs, if_neg hne, hp, hnull, hexp]
    have : dateNowGtJS now (vNum n) = true := decide_eq_true hgt
    simp [this]
  · intro td n hp hnull hexp hngt
    simp only [getToken, hs, if_neg hne, hp, hnull, hexp]
    have : dateNowGtJS now (vNum n) = false := by
      unfold dateNowGtJS jsToNumberJS
      exact decide_eq_false hngt
    simp [this]

/-- Witness for C10: a legacy raw (non-JSON) token string is returned
as-is; a JSON-wrapped expired token is purged and `null` returned. -/
theorem getToken_legacy_raw_passthrough_witness :
    getToken ⟨some "legacy-raw", some "u"⟩ (fun _ => .error ()) 123456 =
      ⟨vStr "legacy-raw", ⟨some "legacy-raw", some "u"⟩⟩ ∧
    getToken ⟨some "wrapped", some "u"⟩
        (fun _ => .ok (vObj [("token", vStr "t"), ("expiresAt", vNum 5)])) 10 =
      ⟨vNull, ⟨none, some "u"⟩⟩ :=
  ⟨(getToken_legacy_raw_passthrough ⟨some "legacy-raw", some "u"⟩ "legacy-raw"
      (fun _ => .error ()) 123456 rfl (by decide)).1 rfl,
    (getToken_legacy_raw_passthrough ⟨some "wrapped", some "u"⟩ "wrapped"
      (fun _ => .ok (vObj [("token", vStr "t"), ("expiresAt", vNum 5)])) 10 rfl
      (by decide)).2.1 _ 5 rfl rfl rfl (by norm_num)⟩

/-! ### Auth orchestration (src/services/auth-service.ts) -/

/-- Embedding of `logout()`: the backend notification's outcome is swallowed by the
inner catch; the `finally` block always clears local auth data, so the
call never throws and always ends logged out locally. -/
def logout (st : AuthStorage) (backendLogout : Except JSVal JSVal) : Except JSVal AuthStorage :=
  match backendLogout with
  | .ok _ => .ok (clearAuthData st)
  | .error _ => .ok (clearAuthData st)

/-- Embedding of `isLoggedIn()`: requires a truthy stored token and user, then checks
JWT expiry.  A non-string token value would make `token.split` inside
`decodeJwt` throw, which `decodeJwt`'s catch turns into `null`, hence
expired, hence `false` — modelled directly as `false`.  A user-JSON
parse failure is caught by `isLoggedIn`'s own catch (`false`). -/
def isLoggedIn (st : AuthStorage) (jsonParse : String → Except Unit JSVal)
    (decodeJwt : String → Option JwtClaims) (now : Int) : Bool :=
  let tk := getToken st jsonParse now
  match getCurrentUser tk.store jsonParse with
  | .error _ => false
  | .ok user =>
    if truthy tk.value && truthy user then
      match tk.value with
      | vStr t => !(isJwtExpired (decodeJwt t) (now : ℚ))
      | _ => false
    else false

/-- C3: `logout` never throws and unconditionally clears both persisted
slots, whatever the backend notification did; `isLoggedIn` on the
resulting state is false for every environment. -/
theorem logout_unconditionally_effective (st : AuthStorage) (backendLogout : Except JSVal JSVal)
    (jsonParse : String → Except Unit JSVal) (decodeJwt : String → Option JwtClaims)
    (now : Int) :
    ∃ st', logout st backendLogout = .ok st' ∧ st'.token = none ∧ st'.user = none ∧
      isLoggedIn st' jsonParse decodeJwt now = false := by
  refine ⟨⟨none, none⟩, ?_, rfl, rfl, rfl⟩
  cases backendLogout with
  | ok v => rfl
  | error e => rfl

/-! ### Login / signup persistence order (C2)

`loginTrace` and `signupTrace` list the persisted-storage states an
execution goes through: the initial state and the state after each
SecureStore write.  Backend calls are parameters (`Except.error` = the
call threw). -/

/-- Embedding of `adaptUserResponse` from src/services/adapters/auth-adapter.ts. -/
def adaptUserResponse (u : JSVal) : JSVal :=
  vObj [("id", coalesce (getField u "id") (coalesce (getField u "userId") (vNum 0))),
    ("email", coalesce (getField u "email") (vStr "")),
    ("username", coalesce (getField u "username") (vStr "")),
    ("fullName", coalesce (getField u "fullName")
      (coalesce (getField u "full_name") (coalesce (getField u "name") (vStr ""))))]

/-- Embedding of `saveToken(token)`: wraps the token with a 7-day expiry timestamp and
stores the JSON string under `auth_token`. -/
def saveToken (st : AuthStorage) (token : JSVal) (now : Int) : AuthStorage :=
  { st with token := some (jsonStringify
      (vObj [("token", token), ("expiresAt", vNum (now + 7 * 24 * 60 * 60 * 1000))])) }

/-- Embedding of `saveCurrentUser(user)`: stores the serialized profile under
`current_user`. -/
def saveCurrentUser (st : AuthStorage) (user : JSVal) : AuthStorage :=
  { st with user := some (jsonStringify user) }

/-- Input of `login`. -/
structure LoginData where
  username : String
  password : String

/-- Backend outcomes seen by one `login` run: the authenticate call and
the follow-up profile fetch, plus `Date.now()`. -/
structure LoginEnv where
  authToken : Except JSVal JSVal
  profile : Except JSVal JSVal
  now : Int

/-- The persisted states of one `login` execution, in order: validation
failure and a failed authenticate call write nothing; on success the
token is saved first (before the profile fetch resolves), then the
user — adapted from the profile, or the minimal fallback when the fetch
failed. -/
def loginTrace (st : AuthStorage) (d : LoginData) (env : LoginEnv) : List AuthStorage :=
  if jsTrim d.username = "" ∨ d.password = "" then [st]
  else
    match env.authToken with
    | .error _ => [st]
    | .ok respData =>
      let token := getField respData "access_token"
      let st1 := saveToken st token env.now
      let storedUser :=
        match env.profile with
        | .ok p => adaptUserResponse p
        | .error _ => vObj [("id", vNum 0), ("email", vStr ""),
            ("username", vStr (jsTrim d.username))]
      let st2 := saveCurrentUser st1 storedUser
      [st, st1, st2]

/-- Input of `signup`. -/
structure SignupData where
  fullName : String
  username : String
  email : String
  password : String
  phoneNumber : String

/-- Backend outcomes seen by one `signup` run: create-account, implicit
follow-up login, profile fetch, and `Date.now()`. -/
structure SignupEnv where
  createUser : Except JSVal JSVal
  login : Except JSVal JSVal
  profile : Except JSVal JSVal
  now : Int

/-- Is `c` matched by the username character class `[a-zA-Z0-9_]`?
(`Char.isAlphanum` is exactly ASCII `[a-zA-Z0-9]`.) -/
def isWordChar (c : Char) : Bool := c.isAlphanum || c = '_'

/-- The frontend validation sequence of `signup`, mirroring its chain of
early returns (each failed check yields a field-tagged failure before
any network call). -/
def validSignup (d : SignupData) : Bool :=
  if jsTrim d.fullName = "" then false
  else if jsTrim d.username = "" then false
  else if d.username.length < 3 then false
  else if ¬(d.username.data.all isWordChar) then false
  else if jsTrim d.email = "" then false
  else if ¬(d.email.data.contains '@') then false
  else if d.password = "" then false
  else if d.password.length < 6 then false
  else if jsTrim d.phoneNumber = "" then false
  else if (d.phoneNumber.data.filter Char.isDigit).length < 10 then false
  else true

/-- The persisted states of one `signup` execution, in order: validation
failure and failed create-account / auto-login calls write nothing; on
success, user and credential are both resolved (profile fetch included)
before the two writes run back-to-back at the end. -/
def signupTrace (st : AuthStorage) (d : SignupData) (env : SignupEnv) : List AuthStorage :=
  if validSignup d = false then [st]
  else
    match env.createUser with
    | .error _ => [st]
    | .ok signupUser =>
      match env.login with
      | .error _ => [st]
      | .ok loginData =>
        let token := getField loginData "access_token"
        let initialUser := vObj [("id", coalesce (getField signupUser "id") (vNum 0)),
          ("email", coalesce (getField signupUser "email") (vStr "")),
          ("username", coalesce (getField signupUser "username") (vStr "")),
          ("fullName", vStr d.fullName)]
        let storedUser :=
          match env.profile with
          | .ok p => adaptUserResponse p
          | .error _ => initialUser
        let st1 := saveToken st token env.now
        let st2 := saveCurrentUser st1 storedUser
        [st, st1, st2]

/-! ### Batch upload (`uploadMultipleFiles` in src/services/db-service.ts)

Per-file network outcomes and the refresh call (`getMyFiles`) are
parameters; `nowIso` stands for `new Date().toISOString()`. -/

/-- A picked document (expo-document-picker asset). -/
structure PickerAsset where
  name : String
  mimeType : Option String
  size : Option Int
  uri : String

/-- Result of `uploadFile` for one asset. -/
structure UploadResult where
  success : Bool
  file : Option FileMetadata
  error : Option JSVal

/-- Embedding of `uploadFile` (db-service.ts): decodes the asset name (a `URIError`
is caught and normalized like any other failure), posts the form data,
and on success returns a locally-built placeholder `FileMetadata`. -/
def uploadFile (a : PickerAsset) (net : Except JSVal Unit) (nowIso : String) : UploadResult :=
  match decodeURIComponentJS a.name with
  | .error msg =>
    { success := false, file := none,
      error := some (jsOr (getField (normalizeError (vErr msg)) "message")
        (vStr "Upload failed")) }
  | .ok dn =>
    match net with
    | .error e =>
      { success := false, file := none,
        error := some (jsOr (getField (normalizeError e) "message") (vStr "Upload failed")) }
    | .ok _ =>
      { success := true,
        file := some {
          id := vNum 0
          fileName := dn
          fileType := vStr (strOr (a.mimeType.getD "") "application/octet-stream")
          fileSize := vNum (a.size.getD 0)
          uploadedByUserId := vNum 0
          uploadedByUsername := vUndef
          uploadedByEmail := vUndef
          timestamp := vStr nowIso
          downloadUrl := vUndef }
        error := none }

/-- The sequential per-asset loop of `uploadMultipleFiles`.  The
`decodeURIComponent` call at the top of each iteration sits outside any
try block, so its `URIError` aborts the whole batch (`Except.error`). -/
def uploadLoop (assets : List PickerAsset) (net : Nat → Except JSVal Unit) (i : Nat)
    (nowIso : String) : Except String (List FileMetadata × List (String × JSVal)) :=
  match assets with
  | [] => .ok ([], [])
  | a :: rest =>
    match decodeURIComponentJS a.name with
    | .error e => .error e
    | .ok dn =>
      let r := uploadFile a (net i) nowIso
      match uploadLoop rest net (i + 1) nowIso with
      | .error e => .error e
      | .ok (sv, fl) =>
        match r.success, r.file with
        | true, some f => .ok (f :: sv, fl)
        | _, _ => .ok (sv, (dn, jsOr (r.error.getD vUndef) (vStr "Unknown error")) :: fl)

/-- The `MultiUploadResult` aggregate. -/
structure MultiUploadResult where
  saved : List FileMetadata
  failed : List (String × JSVal)

/-- Embedding of `uploadMultipleFiles`: empty picker results short-circuit; otherwise
the sequential loop runs and, when at least one file saved, the user's
file list is re-fetched and returned in place of the accumulated
`saved` placeholders (falling back to them if the refresh fails). -/
def uploadMultipleFiles (assets : List PickerAsset) (net : Nat → Except JSVal Unit)
    (refresh : Except JSVal (List FileMetadata)) (nowIso : String) :
    Except String MultiUploadResult :=
  if assets.isEmpty then .ok ⟨[], []⟩
  else
    match uploadLoop assets net 0 nowIso with
    | .error e => .error e
    | .ok (saved, failed) =>
      if saved.length > 0 then
        match refresh with
        | .ok latest => .ok ⟨latest, failed⟩
        | .error _ => .ok ⟨saved, failed⟩
      else .ok ⟨saved, failed⟩

/-- The decoded display name of an asset (what both the saved entry and
the failed entry carry for it). -/
def decName (a : PickerAsset) : String :=
  match decodeURIComponentJS a.name with
  | .ok s => s
  | .error _ => ""

/-- A sample asset and two backend file records for the C1
counterexample. -/
def assetSample : PickerAsset := ⟨"report.pdf", some "application/pdf", some 10, "file:///r"⟩

/-- A backend file record as returned by the refresh call. -/
def backendFileSample (n : String) : FileMetadata :=
  ⟨vStr "uuid-1", n, vStr "application/pdf", vNum 10, vNum 7, vStr "You", vStr "",
    vStr "2024-01-01T00:00:00Z", vUndef⟩

/-- C1 counterexample: one input asset, a successful upload, and a
successful refresh returning the user's two-file backend list give
`saved.length + failed.length = 2 ≠ 1`: on the refresh path `saved` is
the whole refreshed file list, not the per-input outcomes. -/
theorem uploadBatch_refresh_breaks_invariant :
    (uploadMultipleFiles [assetSample] (fun _ => .ok ())
        (.ok [backendFileSample "old.txt", backendFileSample "report.pdf"]) "T").map
      (fun r => r.saved.length + r.failed.length) = .ok 2 ∧
    [assetSample].length = 1 := ⟨rfl, rfl⟩

lemma uploadLoop_spec (net : Nat → Except JSVal Unit) (nowIso : String) :
    ∀ (assets : List PickerAsset) (i : Nat) (sv : List FileMetadata)
      (fl : List (String × JSVal)),
      uploadLoop assets net i nowIso = .ok (sv, fl) →
      sv.length + fl.length = assets.length ∧
      (sv.map (fun f => f.fileName) ++ fl.map Prod.fst).Perm (assets.map decName) := by
  intro assets
  induction assets with
  | nil =>
    intro i sv fl h
    simp only [uploadLoop, Except.ok.injEq, Prod.mk.injEq] at h
    obtain ⟨h1, h2⟩ := h
    subst h1
    subst h2
    simp
  | cons a rest ih =>
    intro i sv fl h
    unfold uploadLoop at h
    cases hdec : decodeURIComponentJS a.name with
    | error e =>
      rw [hdec] at h
      simp at h
    | ok dn =>
      rw [hdec] at h
      cases hrec : uploadLoop rest net (i + 1) nowIso with
      | error e =>
        rw [hrec] at h
        cases hni : net i <;> simp [uploadFile, hdec, hni] at h
      | ok p =>
        obtain ⟨sv', fl'⟩ := p
        rw [hrec] at h
        obtain ⟨hlen, hperm⟩ := ih (i + 1) sv' fl' hrec
        cases hni : net i with
        | ok u =>
          simp only [uploadFile, hdec, hni, Except.ok.injEq, Prod.mk.injEq] at h
          obtain ⟨h1, h2⟩ := h
          subst h1
          subst h2
          constructor
          · simp only [List.length_cons, List.length_map]
            omega
          · simp only [List.map_cons, List.cons_append, List.map]
            have hdn : decName a = dn := by
              unfold decName
              rw [hdec]
            rw [hdn]
            exact hperm.cons dn
        | error eNet =>
          simp only [uploadFile, hdec, hni, Except.ok.injEq, Prod.mk.injEq] at h
          obtain ⟨h1, h2⟩ := h
          subst h1
          subst h2
          constructor
          · simp only [List.length_cons, List.length_map]
            omega
          · simp only [List.map_cons, List.map, List.cons_append]
            have hdn : decName a = dn := by
              unfold decName
              rw [hdec]
            rw [hdn]
            exact List.perm_middle.trans (hperm.cons dn)

/-- C1 amended: off the successful-refresh path (here: the refresh call
fails, which also covers the all-failed path since the result is then
identical), every input asset lands in exactly one list:
`saved.length + failed.length = N`, and when the decoded input names are
pairwise distinct no name occurs in both lists.  On the
successful-refresh path `saved` is the full refreshed backend list and
the count invariant does not hold (see the counterexample). -/
theorem uploadBatch_invariant_without_refresh (assets : List PickerAsset)
    (net : Nat → Except JSVal Unit) (e : JSVal) (nowIso : String) (r : MultiUploadResult)
    (h : uploadMultipleFiles assets net (.error e) nowIso = .ok r) :
    r.saved.length + r.failed.length = assets.length ∧
    ((assets.map decName).Nodup →
      ∀ n, n ∈ r.saved.map (fun f => f.fileName) → n ∈ r.failed.map Prod.fst → False) := by
  unfold uploadMultipleFiles at h
  by_cases hemp : assets.isEmpty
  · rw [if_pos hemp] at h
    simp only [Except.ok.injEq] at h
    subst h
    rw [List.isEmpty_iff] at hemp
    subst hemp
    exact ⟨rfl, fun _ n hn _ => by simp at hn⟩
  · rw [if_neg hemp] at h
    cases hloop : uploadLoop assets net 0 nowIso with
    | error le =>
      rw [hloop] at h
      simp at h
    | ok p =>
      obtain ⟨sv, fl⟩ := p
      rw [hloop] at h
      dsimp only at h
      obtain ⟨hlen, hperm⟩ := uploadLoop_spec net nowIso assets 0 sv fl hloop
      have hr : r = ⟨sv, fl⟩ := by
        by_cases hpos : sv.length > 0
        · rw [if_pos hpos] at h
          simp only [Except.ok.injEq] at h
          exact h.symm
        · rw [if_neg hpos] at h
          simp only [Except.ok.injEq] at h
          exact h.symm
      subst hr
      refine ⟨hlen, fun hnd n hn1 hn2 => ?_⟩
      have hnodup : (sv.map (fun f => f.fileName) ++ fl.map Prod.fst).Nodup :=
        (hperm.nodup_iff).mpr hnd
      obtain ⟨-, -, hdisj⟩ := List.nodup_append.mp hnodup
      exact hdisj hn1 hn2

/-- Concrete three-file batch for the C1 witness: file #2's upload call
throws, the refresh fails. -/
def batchAssets : List PickerAsset :=
  [⟨"a.txt", none, none, "u1"⟩, ⟨"b.txt", none, none, "u2"⟩, ⟨"c.txt", none, none, "u3"⟩]

/-- Per-index outcomes for the C1 witness (index 1 fails). -/
def batchNet : Nat → Except JSVal Unit :=
  fun i => if i = 1 then .error (vErr "net down") else .ok ()

/-- The locally-built placeholder record for a plain asset. -/
def uploadedPlain (n : String) (iso : String) : FileMetadata :=
  ⟨vNum 0, n, vStr "application/octet-stream", vNum 0, vNum 0, vUndef, vUndef, vStr iso, vUndef⟩

/-- Expected batch result for the C1 witness. -/
def batchExpected : MultiUploadResult :=
  ⟨[uploadedPlain "a.txt" "T", uploadedPlain "c.txt" "T"], [("b.txt", vStr "net down")]⟩

/-- Witness for the amended C1 theorem: 2 saved + 1 failed = 3 inputs,
names disjoint. -/
theorem uploadBatch_invariant_without_refresh_witness :
    batchExpected.saved.length + batchExpected.failed.length = batchAssets.length ∧
    ((batchAssets.map decName).Nodup →
      ∀ n, n ∈ batchExpected.saved.map (fun f => f.fileName) →
        n ∈ batchExpected.failed.map Prod.fst → False) :=
  uploadBatch_invariant_without_refresh batchAssets batchNet (vErr "refresh failed") "T"
    batchExpected rfl

/-! ### Duplicate check (`checkDuplicateFile` in src/unnamed/part_010) -/

/-- Strict `v === n` for a numeric literal. -/
def strictEqNum (v : JSVal) (n : Int) : Bool :=
  match v with
  | vNum m => m == n
  | _ => false

/-- Embedding of `checkDuplicateFile`: returns the backend's response data on
success; in the catch block a 404 returns `null`, and every other error
is normalized, logged, and also answered with `null` ("Assume no
duplicate on error"). -/
def checkDuplicateFile (outcome : Except JSVal JSVal) : JSVal :=
  match outcome with
  | .ok d => d
  | .error e => if strictEqNum (getField e "status") 404 then vNull else vNull

/-- C9: `checkDuplicateFile` never throws — every error outcome, not
just a 404, returns `null`, which is exactly the no-duplicate response
and is falsy, so the duplicate-aware batch flow (`if (existing)`)
treats the file as approved. -/
theorem checkDuplicateFile_error_means_no_duplicate (err : JSVal) :
    checkDuplicateFile (.error err) = vNull ∧
    checkDuplicateFile (.error err) = checkDuplicateFile (.ok vNull) ∧
    truthy (checkDuplicateFile (.error err)) = false := by
  refine ⟨?_, ?_, ?_⟩ <;> simp [checkDuplicateFile, ite_self, truthy]

/-- A successful login environment used for the C2 counterexample. -/
def loginEnvSample : LoginEnv :=
  ⟨.ok (vObj [("access_token", vStr "tok")]),
    .ok (vObj [("id", vNum 1), ("username", vStr "alice"), ("email", vStr "a@b.c")]), 0⟩

/-- C2 counterexample: starting from consistent (empty) storage, a
successful login goes through a persisted state holding a credential but
no user — `login` saves the token first and fetches the profile before
saving the user — so the Session is not persisted atomically. -/
theorem login_persists_token_before_user :
    ((loginTrace ⟨none, none⟩ ⟨"alice", "pw"⟩ loginEnvSample)[1]?).map
      (fun s => (s.token.isSome, s.user.isSome)) = some (true, false) := by rfl

/-- C2 amended: every login/signup execution either persists nothing
(validation or backend failure) or performs exactly two writes — token
first, then user — whose single intermediate state has a credential but
still the initial user slot, and whose final state has both credential
and user persisted. -/
theorem session_writes_complete_consistently (st : AuthStorage) (d : LoginData)
    (env : LoginEnv) (sd : SignupData) (senv : SignupEnv) :
    (loginTrace st d env = [st] ∨ ∃ s1 s2, loginTrace st d env = [st, s1, s2] ∧
      s1.token.isSome = true ∧ s1.user = st.user ∧
      s2.token.isSome = true ∧ s2.user.isSome = true) ∧
    (signupTrace st sd senv = [st] ∨ ∃ s1 s2, signupTrace st sd senv = [st, s1, s2] ∧
      s1.token.isSome = true ∧ s1.user = st.user ∧
      s2.token.isSome = true ∧ s2.user.isSome = true) := by
  constructor
  · unfold loginTrace
    by_cases hv : jsTrim d.username = "" ∨ d.password = ""
    · rw [if_pos hv]
      exact Or.inl rfl
    · rw [if_neg hv]
      cases env.authToken with
      | error e => exact Or.inl rfl
      | ok respData => exact Or.inr ⟨_, _, rfl, rfl, rfl, rfl, rfl⟩
  · unfold signupTrace
    by_cases hv : validSignup sd = false
    · rw [if_pos hv]
      exact Or.inl rfl
    · rw [if_neg hv]
      cases senv.createUser with
      | error e => exact Or.inl rfl
      | ok su =>
        cases senv.login with
        | error e => exact Or.inl rfl
        | ok ld => exact Or.inr ⟨_, _, rfl, rfl, rfl, rfl, rfl⟩

